import Mathlib

/-!
# Verification of the gettext-extractor JS parser (`src/extractor.ts`)

A shallow embedding of the argument-role matching algorithm
(`extractArguments`) and the comment-object flattening algorithm
(`getComments`) of the repository, together with theorems settling the
specification claims.  TypeScript AST nodes are modelled by the inductive
`Expr`; possibly-`undefined` values are modelled by `Option`; the thrown
`Error` of `getComments` and the in-place mutation of the shared
`commentOptions` object are modelled by explicit `Except`/state passing.
-/

set_option autoImplicit false

namespace GettextJs

mutual
/-- The TypeScript expression shapes the extractor distinguishes
(`ts.SyntaxKind` dispatch in `extractor.ts`).  `identExpr "undefined"`
plays the role of the `undefined` identifier; `otherExpr` stands for any
further expression kind (calls, arrays, non-plus binaries, ...). -/
inductive Expr where
  | stringLit (text : String)
  | templateLit (text : String)
  | objectLit (props : List ObjProp)
  | nullLit
  | identExpr (name : String)
  | numericLit (text : String)
  | binaryPlus (l r : Expr)
  | paren (e : Expr)
  | otherExpr

/-- A property of an object literal: a `PropertyAssignment` with an
identifier name and a value, or any other property kind (shorthand,
spread, ...), which `getComments` skips. -/
inductive ObjProp where
  | assign (key : String) (value : Expr)
  | nonAssign
end

end GettextJs

namespace GettextJs

/-- `.text` of a literal expression node (used only on string-like
literals). -/
def litText : Expr → String
  | .stringLit s => s
  | .templateLit s => s
  | .numericLit s => s
  | _ => ""

/-- `isTextLiteral` of the source: string literal or no-substitution
template literal; `undefined` (`none`) is falsy. -/
def isTextLiteral : Option Expr → Bool
  | some (.stringLit _) => true
  | some (.templateLit _) => true
  | _ => false

/-- `isObjectLiteralExpression` of the source. -/
def isObjectLiteralExpression : Option Expr → Bool
  | some (.objectLit _) => true
  | _ => false

/-- `isNull` of the source. -/
def isNull : Option Expr → Bool
  | some .nullLit => true
  | _ => false

/-- `isUndefined` of the source: an identifier whose text is
`undefined`. -/
def isUndefined : Option Expr → Bool
  | some (.identExpr n) => n == "undefined"
  | _ => false

/-- `isZeroNumericLiteral` of the source. -/
def isZeroNumericLiteral : Option Expr → Bool
  | some (.numericLit t) => t == "0"
  | _ => false

/-- `isNullOrUndefined` of the source: the omitted-marker test. -/
def isNullOrUndefined (e : Option Expr) : Bool :=
  isNull e || isUndefined e || isZeroNumericLiteral e

/-- `getAdditionExpression` of the source: unwrap parentheses, return the
two operands of a `+` binary expression, else `none`. -/
def getAdditionExpression : Expr → Option (Expr × Expr)
  | .paren e => getAdditionExpression e
  | .binaryPlus l r => some (l, r)
  | _ => none

mutual
/-- One side of `processStringAddition`: a text literal contributes its
text, an addition expression is folded recursively, anything else makes
the whole fold fail. -/
def addSide : Expr → Option String
  | .stringLit s => some s
  | .templateLit s => some s
  | .paren e => addInner e
  | .binaryPlus l r =>
    match addSide l, addSide r with
    | some a, some b => some (a ++ b)
    | _, _ => none
  | _ => none

/-- `getAdditionExpression` applied under a parenthesized side: only an
addition expression below the parentheses can still fold. -/
def addInner : Expr → Option String
  | .paren e => addInner e
  | .binaryPlus l r =>
    match addSide l, addSide r with
    | some a, some b => some (a ++ b)
    | _, _ => none
  | _ => none
end

/-- `checkAndConcatenateStrings` of the source: fold a tree of `+` over
string-like literals into a single string literal, otherwise return the
expression unchanged. -/
def checkAndConcatenateStrings (expression : Expr) : Expr :=
  match getAdditionExpression expression with
  | none => expression
  | some (l, r) =>
    match addSide l, addSide r with
    | some a, some b => .stringLit (a ++ b)
    | _, _ => expression

/-- The four semantic roles of the argument mapping. -/
inductive Role where
  | text
  | textPlural
  | context
  | comments
  deriving DecidableEq, Repr

/-- `ICustomArgumentIndexMapping`: position of each configured role
(`text` is required, the rest optional). -/
structure ArgumentMapping where
  text : Nat
  textPlural : Option Nat := none
  context : Option Nat := none
  comments : Option Nat := none
  deriving DecidableEq, Repr

/-- `IContentOptions` (all fields are set by `callExpressionExtractor`
before `extractArguments` runs; `replaceNewLines = none` models
`false`). -/
structure ContentOptions where
  trimWhiteSpace : Bool := false
  preserveIndentation : Bool := true
  replaceNewLines : Option String := none
  deriving DecidableEq, Repr

/-- `ICustomCommentOptions`; optional fields model possibly-`undefined`
properties of the options object. -/
structure CommentOptions where
  commentString : Option String := none
  props : Option (List (String × String × String)) := none
  throwWhenMalformed : Option Bool := none
  fallback : Option Bool := none
  deriving DecidableEq, Repr

/-- `Object.entries(argumentMapping)` restricted to the declared role
keys, in the interface declaration order. -/
def mappingEntries (m : ArgumentMapping) : List (Role × Nat) :=
  (Role.text, m.text) ::
    ((match m.textPlural with | some n => [(Role.textPlural, n)] | none => []) ++
     (match m.context with | some n => [(Role.context, n)] | none => []) ++
     (match m.comments with | some n => [(Role.comments, n)] | none => []))

/-- Stable insertion of one entry into a position-sorted list (models the
stable ECMAScript `sort` with comparator `a[1] - b[1]`). -/
def insertByPos (p : Role × Nat) : List (Role × Nat) → List (Role × Nat)
  | [] => [p]
  | q :: qs => if p.2 ≤ q.2 then p :: q :: qs else q :: insertByPos p qs

/-- Sorting the mapping entries ascending by position. -/
def sortByPos : List (Role × Nat) → List (Role × Nat)
  | [] => []
  | p :: ps => insertByPos p (sortByPos ps)

/-- JavaScript string split on `'\n'`, on the character list. -/
def splitLinesList : List Char → List String
  | [] => [""]
  | c :: cs =>
    match splitLinesList cs with
    | [] => []
    | h :: t => if c = '\n' then "" :: h :: t else String.mk (c :: h.data) :: t

/-- JavaScript string split on `'\n'`. -/
def splitLines (s : String) : List String := splitLinesList s.data

/-- White space, for the trimming model. -/
def isWs (c : Char) : Bool := c = ' ' || c = '\t' || c = '\n' || c = '\r'

/-- Drop leading white space of one line. -/
def dropWs (cs : List Char) : List Char := cs.dropWhile isWs

/-- Trim both ends of a string. -/
def trimString (s : String) : String :=
  String.mk ((dropWs (dropWs s.data.reverse).reverse))

/-- Modelled from the spec: `normalizeContent` is an external utility of
the host `gettext-extractor` package (out of scope for the repository
source).  Per the repository README: `preserveIndentation = false`
removes white space at the beginning of each line; `trimWhiteSpace`
trims the content; `replaceNewLines = some s` replaces every new line
with `s`.  With the default options it is the identity. -/
def normalizeContent (text : String) (o : ContentOptions) : String :=
  let t := if o.preserveIndentation then text else
    String.intercalate "\n" ((splitLines text).map (fun l => String.mk (dropWs l.data)))
  let t := if o.trimWhiteSpace then trimString t else t
  match o.replaceNewLines with
  | none => t
  | some s => String.intercalate s (splitLines t)

/-- `IMessageData` as produced by `extractArguments`. -/
structure MessageData where
  text : String
  textPlural : Option String := none
  context : Option String := none
  comments : Option (List String) := none
  deriving DecidableEq, Repr

/-- The `argumentExpressions` record of `extractArguments`. -/
structure ArgExprs where
  text : Option Expr := none
  textPlural : Option Expr := none
  context : Option Expr := none

/-- `argumentExpressions[args[k]] = e`: writing to the `text`,
`textPlural` or `context` key updates that field; writing to the
`comments` key or to `undefined` creates a property that is never read,
hence a no-op. -/
def ArgExprs.set (a : ArgExprs) : Option Role → Option Expr → ArgExprs
  | some .text, e => { a with text := e }
  | some .textPlural, e => { a with textPlural := e }
  | some .context, e => { a with context := e }
  | _, _ => a

/-- Read the field of `argumentExpressions` belonging to a role
(`comments` has no field there). -/
def ArgExprs.get (a : ArgExprs) : Role → Option Expr
  | .text => a.text
  | .textPlural => a.textPlural
  | .context => a.context
  | .comments => none

/-- The first region of the cascade (lines 162-177): neither
`textPlural` nor `context` is mapped to a number, so only `text` and
possibly `comments` can match, using the first two arguments. -/
def matchTextOnly (cmi : Option Nat) (fallback hasCmo : Bool)
    (r0 r1 : Option Role) (a1 a2 : Option Expr) : ArgExprs × Option Expr :=
  let objOrLit : Option Expr → Bool := fun a =>
    if hasCmo then isObjectLiteralExpression a else isTextLiteral a
  let A0 : ArgExprs := {}
  if cmi == some 0 && (objOrLit a1 || isNullOrUndefined a1) && isTextLiteral a2 then
    (A0.set r1 a2, if objOrLit a1 then a1 else none)
  else if fallback && cmi == some 0 && isTextLiteral a1 then
    (A0.set r1 a1, none)
  else if (cmi == some 1 || cmi == none) && isTextLiteral a1 then
    (A0.set r0 a1, if cmi.isSome && objOrLit a2 then a2 else none)
  else (A0, none)

/-- The second region of the cascade (lines 178-257): both
`textPluralOptional` and `contextOptional` hold. -/
def matchBothOptional (cmi : Option Nat) (fallback hasCmo : Bool)
    (r0 r1 r2 r3 : Option Role)
    (a1 a2 a3 a4 : Option Expr) : ArgExprs × Option Expr :=
  let objOrLit : Option Expr → Bool := fun a =>
    if hasCmo then isObjectLiteralExpression a else isTextLiteral a
  let A0 : ArgExprs := {}
  if cmi == some 0 then
      if objOrLit a1 || isNullOrUndefined a1 then
        let ce := if objOrLit a1 then a1 else none
        if isTextLiteral a2 then
          let A := A0.set r1 a2
          if isTextLiteral a3 then
            let A := A.set r2 a3
            if isTextLiteral a4 then (A.set r3 a4, ce) else (A, ce)
          else if isNullOrUndefined a3 && isTextLiteral a4 then (A.set r3 a4, ce)
          else (A, ce)
        else (A0, ce)
      else if fallback && isTextLiteral a1 then
        let A := A0.set r1 a1
        if isTextLiteral a2 || isNullOrUndefined a2 then
          let A := if isTextLiteral a2 then A.set r2 a2 else A
          if isTextLiteral a3 then (A.set r3 a3, none) else (A, none)
        else (A, none)
      else (A0, none)
    else if cmi == some 1 then
      if isTextLiteral a1 then
        let A := A0.set r0 a1
        if objOrLit a2 || isNullOrUndefined a2 then
          let ce := if objOrLit a2 then a2 else none
          if isTextLiteral a3 || isNullOrUndefined a3 then
            let A := if isTextLiteral a3 then A.set r2 a3 else A
            if isTextLiteral a4 then (A.set r3 a4, ce) else (A, ce)
          else (A, ce)
        else if fallback && isTextLiteral a2 then
          let A := A.set r2 a2
          if isTextLiteral a3 then (A.set r3 a3, none) else (A, none)
        else (A, none)
      else (A0, none)
    else if cmi == some 2 then
      if isTextLiteral a1 then
        let A := A0.set r0 a1
        if isTextLiteral a2 || isNullOrUndefined a2 then
          let A := if isTextLiteral a2 then A.set r1 a2 else A
          if objOrLit a3 || isNullOrUndefined a3 then
            let ce := if objOrLit a3 then a3 else none
            if isTextLiteral a4 then (A.set r3 a4, ce) else (A, ce)
          else if fallback && isTextLiteral a3 then (A.set r3 a3, none)
          else (A, none)
        else if fallback && isObjectLiteralExpression a2 then
          if isTextLiteral a3 then (A.set r3 a3, a2) else (A, a2)
        else (A, none)
      else (A0, none)
    else if cmi == some 3 || cmi == none then
      if isTextLiteral a1 then
        let A := A0.set r0 a1
        if isTextLiteral a2 || isNullOrUndefined a2 then
          let A := if isTextLiteral a2 then A.set r1 a2 else A
          if isTextLiteral a3 || isNullOrUndefined a3 then
            let A := if isTextLiteral a3 then A.set r2 a3 else A
            (A, if cmi.isSome && objOrLit a4 then a4 else none)
          else if fallback && cmi.isSome && isObjectLiteralExpression a3 then (A, a3)
          else (A, none)
        else if fallback && cmi.isSome && isObjectLiteralExpression a2 then (A, a2)
        else (A, none)
      else (A0, none)
    else (A0, none)

/-- The third region of the cascade (lines 258-331): exactly one of
`textPluralOptional` / `contextOptional` holds. -/
def matchOneOptional (cmi : Option Nat) (fallback hasCmo : Bool)
    (r0 r1 r2 r3 : Option Role)
    (a1 a2 a3 a4 : Option Expr) : ArgExprs × Option Expr :=
  let objOrLit : Option Expr → Bool := fun a =>
    if hasCmo then isObjectLiteralExpression a else isTextLiteral a
  let A0 : ArgExprs := {}
  if cmi == some 0 then
      if (objOrLit a1 || isNullOrUndefined a1) &&
          (isTextLiteral a2 || isNullOrUndefined a2) && isTextLiteral a3 then
        let ce := if objOrLit a1 then a1 else none
        let A := if isTextLiteral a2 then A0.set r1 a2 else A0
        let A := A.set r2 a3
        if isTextLiteral a4 then (A.set r3 a4, ce) else (A, ce)
      else if fallback && isTextLiteral a1 && isTextLiteral a2 then
        let A := (A0.set r1 a1).set r2 a2
        if isTextLiteral a3 then (A.set r3 a3, none) else (A, none)
      else (A0, none)
    else if cmi == some 1 then
      if isTextLiteral a1 || isNullOrUndefined a1 then
        let A := if isTextLiteral a1 then A0.set r0 a1 else A0
        if (objOrLit a2 || isNullOrUndefined a2) && isTextLiteral a3 then
          let ce := if objOrLit a2 then a2 else none
          let A := A.set r2 a3
          if isTextLiteral a4 then (A.set r3 a4, ce) else (A, ce)
        else if fallback && isTextLiteral a2 then
          let A := A.set r2 a2
          if isTextLiteral a3 then (A.set r3 a3, none) else (A, none)
        else (A, none)
      else if fallback && isObjectLiteralExpression a1 && isTextLiteral a2 then
        let A := A0.set r2 a2
        if isTextLiteral a3 then (A.set r3 a3, a1) else (A, a1)
      else (A0, none)
    else if cmi == some 2 then
      if (isTextLiteral a1 || isNullOrUndefined a1) && isTextLiteral a2 then
        let A := if isTextLiteral a1 then A0.set r0 a1 else A0
        let A := A.set r1 a2
        if objOrLit a3 || isNullOrUndefined a3 then
          let ce := if objOrLit a3 then a3 else none
          if isTextLiteral a4 then (A.set r3 a4, ce) else (A, ce)
        else if fallback && isTextLiteral a3 then (A.set r3 a3, none)
        else (A, none)
      else (A0, none)
    else if cmi == some 3 || cmi == none then
      if (isTextLiteral a1 || isNullOrUndefined a1) && isTextLiteral a2 then
        let A := if isTextLiteral a1 then A0.set r0 a1 else A0
        let A := A.set r1 a2
        if isTextLiteral a3 || isNullOrUndefined a3 then
          let A := if isTextLiteral a3 then A.set r2 a3 else A
          (A, if cmi.isSome && objOrLit a4 then a4 else none)
        else if fallback && cmi.isSome && isObjectLiteralExpression a3 then (A, a3)
        else (A, none)
      else (A0, none)
    else (A0, none)

/-- The fourth region of the cascade (lines 332-414): neither
`textPluralOptional` nor `contextOptional` holds. -/
def matchNoneOptional (cmi : Option Nat) (fallback hasCmo : Bool)
    (r0 r1 r2 r3 : Option Role)
    (a1 a2 a3 a4 : Option Expr) : ArgExprs × Option Expr :=
  let objOrLit : Option Expr → Bool := fun a =>
    if hasCmo then isObjectLiteralExpression a else isTextLiteral a
  let A0 : ArgExprs := {}
  if cmi == some 0 && (objOrLit a1 || isNullOrUndefined a1) &&
        (isTextLiteral a2 || isNullOrUndefined a2) &&
        (isTextLiteral a3 || isNullOrUndefined a3) && isTextLiteral a4 then
      let ce := if objOrLit a1 then a1 else none
      let A := if isTextLiteral a2 then A0.set r1 a2 else A0
      let A := if isTextLiteral a3 then A.set r2 a3 else A
      (A.set r3 a4, ce)
    else if fallback && cmi == some 0 && isTextLiteral a1 &&
        (isTextLiteral a2 || isNullOrUndefined a2) && isTextLiteral a3 then
      let A := A0.set r1 a1
      let A := if isTextLiteral a2 then A.set r2 a2 else A
      (A.set r3 a3, none)
    else if cmi == some 1 && (isTextLiteral a1 || isNullOrUndefined a1) &&
        (objOrLit a2 || isNullOrUndefined a2) &&
        (isTextLiteral a3 || isNullOrUndefined a3) && isTextLiteral a4 then
      let A := if isTextLiteral a1 then A0.set r0 a1 else A0
      let A := if isTextLiteral a3 then A.set r2 a3 else A
      (A.set r3 a4, if objOrLit a2 then a2 else none)
    else if fallback && cmi == some 1 && (isTextLiteral a1 || isNullOrUndefined a1) &&
        isTextLiteral a2 && isTextLiteral a3 then
      let A := if isTextLiteral a1 then A0.set r0 a1 else A0
      ((A.set r2 a2).set r3 a3, none)
    else if fallback && cmi == some 1 && isObjectLiteralExpression a1 &&
        (isTextLiteral a2 || isNullOrUndefined a2) && isTextLiteral a3 then
      let A := if isTextLiteral a2 then A0.set r2 a2 else A0
      (A.set r3 a3, a1)
    else if (cmi == some 2 || cmi == some 3 || cmi == none) &&
        (isTextLiteral a1 || isNullOrUndefined a1) &&
        (isTextLiteral a2 || isNullOrUndefined a2) then
      let A := if isTextLiteral a1 then A0.set r0 a1 else A0
      let A := if isTextLiteral a2 then A.set r1 a2 else A
      if cmi == some 2 && (objOrLit a3 || isNullOrUndefined a3) && isTextLiteral a4 then
        (A.set r3 a4, if objOrLit a3 then a3 else none)
      else if fallback && cmi == some 2 && isTextLiteral a3 then
        (A.set r3 a3, none)
      else if (cmi == some 3 || cmi == none) && isTextLiteral a3 then
        (A.set r2 a3, if cmi.isSome && objOrLit a4 then a4 else none)
      else (A, none)
    else if fallback && cmi == some 2 && (isTextLiteral a1 || isNullOrUndefined a1) &&
        objOrLit a2 && isTextLiteral a3 then
      let A := if isTextLiteral a1 then A0.set r0 a1 else A0
      (A.set r3 a3, a2)
    else if fallback && cmi == some 2 && objOrLit a1 && isTextLiteral a2 then
      (A0.set r3 a2, a1)
    else (A0, none)

/-- The argument-role matching cascade of `extractArguments`
(lines 162-414 of `extractor.ts`), with the values already fetched and
folded: `tpNum`/`ctxNum` are the `typeof ... === 'number'` tests,
`tpOpt`/`ctxOpt` are `textPluralOptional`/`contextOptional`, `cmi` is
`commentMappingIndex` (`none` models `NaN`), `r0`-`r3` are
`args[0]`-`args[3]`, and `a1`-`a4` are the (possibly `undefined`)
first to fourth arguments.  Returns `argumentExpressions` and
`commentsExpression`.  The four regions are the branch functions
above. -/
def matchArgs (tpNum ctxNum tpOpt ctxOpt : Bool) (cmi : Option Nat)
    (fallback hasCmo : Bool) (r0 r1 r2 r3 : Option Role)
    (a1 a2 a3 a4 : Option Expr) : ArgExprs × Option Expr :=
  if !tpNum && !ctxNum then matchTextOnly cmi fallback hasCmo r0 r1 a1 a2
  else if tpOpt && ctxOpt then matchBothOptional cmi fallback hasCmo r0 r1 r2 r3 a1 a2 a3 a4
  else if ctxOpt || tpOpt then matchOneOptional cmi fallback hasCmo r0 r1 r2 r3 a1 a2 a3 a4
  else matchNoneOptional cmi fallback hasCmo r0 r1 r2 r3 a1 a2 a3 a4

/-- `CommentsObject`: the four accumulator lists of the flattener. -/
structure CommentsObject where
  comment : List String := []
  otherComments : List String := []
  propComments : List String := []
  keyedComments : List String := []
  deriving DecidableEq, Repr

/-- The failure modes of `getComments`: the malformed-comment `Error`
thrown at line 479 (carrying the dotted key, the message text and the
message context), and the JavaScript `TypeError` that
`commentOptions.props![prevKey]` would raise were the group key missing
from `props` (unreachable from `extractArguments`). -/
inductive ExtractErr where
  | malformed (key : String) (text : String) (context : Option String)
  | badProps (key : String)
  deriving DecidableEq, Repr

/-- The kind test `[StringLiteral, NoSubstitutionTemplateLiteral]
.includes(value.kind)` on a (present) expression. -/
def isStringValue : Expr → Bool
  | .stringLit _ => true
  | .templateLit _ => true
  | _ => false

/-- `commentOptions.props![prevKey]`: look the bracket pair of a group
key up. -/
def lookupProps (ps : Option (List (String × String × String))) (g : String) :
    Option (String × String) :=
  match ps with
  | none => none
  | some l => (l.find? (fun e => e.1 == g)).map (fun e => e.2)

/-- Handling of one string-valued property of `getComments`
(lines 459-470): choose the accumulator list and the formatting of the
line(s).  `Except.error` models the `TypeError` that
`commentOptions.props![prevKey]` would raise. -/
def pushString (key : String) (value : Expr) (prevKey : Option String)
    (o : CommentOptions) (c : CommentsObject) (isProp : Bool) :
    Except ExtractErr CommentsObject :=
  let commentsArray := splitLines (litText value)
  let nextKey := match prevKey with | some pk => pk ++ "." ++ key | none => key
  if prevKey == none && !isProp && o.commentString == some key then
    .ok { c with comment := c.comment ++ commentsArray }
  else if isProp && prevKey.isSome && prevKey != some "comment" then
    match lookupProps o.props (prevKey.getD "") with
    | some braces =>
      .ok { c with propComments := c.propComments ++
          commentsArray.map (fun line =>
            braces.1 ++ key ++ braces.2 ++ ": " ++ line) }
    | none => .error (.badProps (prevKey.getD ""))
  else if prevKey.isSome then
    .ok { c with keyedComments := c.keyedComments ++
        commentsArray.map (fun line => nextKey ++ ": " ++ line) }
  else
    .ok { c with otherComments := c.otherComments ++
        commentsArray.map (fun line => nextKey ++ ": " ++ line) }

/-- The `properties.forEach` loop of `getComments`, one property at a
time.  Recursive `getComments` calls of the source (lines 474 and 476)
are inlined at the nested-object branch — with their `propsKeys`
argument supplied, the header of `getComments` reduces to the
`throwWhenMalformed` defaulting step.  In the nested-object branch the
source tests `isObjectLiteralExpression(value)` with
`value = checkAndConcatenateStrings(initializer)`; since the folding
returns either the original expression or a fresh string literal, the
folded value is an object literal exactly when the original property
value is (and then the two are equal), so the branch matches on the
original value. -/
def goProps (props : List ObjProp) (prevKey : Option String)
    (o : CommentOptions) (c : CommentsObject) (msg : MessageData)
    (isProp : Bool) (propsKeys : List String) :
    CommentOptions × Except ExtractErr CommentsObject :=
  match props with
  | [] => (o, .ok c)
  | .nonAssign :: rest => goProps rest prevKey o c msg isProp propsKeys
  | .assign key pval :: rest =>
    let value := checkAndConcatenateStrings pval
    let nextKey := match prevKey with | some pk => pk ++ "." ++ key | none => key
    if isStringValue value then
      match pushString key value prevKey o c isProp with
      | .ok c2 => goProps rest prevKey o c2 msg isProp propsKeys
      | .error e => (o, .error e)
    else
      match pval with
      | .objectLit ps =>
        let oh := if o.throwWhenMalformed == none then
          { o with throwWhenMalformed := some true } else o
        let next := if prevKey == none && propsKeys.contains key then
            goProps ps (some key) oh c msg true propsKeys
          else
            goProps ps (some nextKey) oh c msg false propsKeys
        match next.2 with
        | .error e => (next.1, .error e)
        | .ok c2 => goProps rest prevKey next.1 c2 msg isProp propsKeys
      | _ =>
        if o.throwWhenMalformed == some true then
          (o, .error (.malformed nextKey msg.text msg.context))
        else goProps rest prevKey o c msg isProp propsKeys

/-- `getComments` of the source: flatten one object literal into the
accumulator.  The first component of the result is the (possibly
mutated) `commentOptions` object — the source sets
`commentOptions.throwWhenMalformed = true` in place when the field is
`undefined`. -/
def getComments (props : List ObjProp) (prevKey : Option String)
    (o : CommentOptions) (c : CommentsObject) (msg : MessageData)
    (isProp : Bool) (propsKeys0 : Option (List String)) :
    CommentOptions × Except ExtractErr CommentsObject :=
  let propsKeys := match propsKeys0 with
    | some ks => ks
    | none => match o.props with | some ps => ps.map (fun e => e.1) | none => []
  let o := if o.throwWhenMalformed == none then
    { o with throwWhenMalformed := some true } else o
  goProps props prevKey o c msg isProp propsKeys

/-- `callArguments[i]` for a possibly-`NaN` index. -/
def getArg (callArguments : List Expr) : Option Nat → Option Expr
  | some i => callArguments.get? i
  | none => none

/-- `const fallback = commentOptions?.fallback`, as a truth value. -/
def fallbackOf (commentOptions : Option CommentOptions) : Bool :=
  match commentOptions with | some o => o.fallback.getD false | none => false

/-- The preparatory part of `extractArguments` (lines 136-414): sort the
mapping, compute the optionality flags and `commentMappingIndex`, fetch
and fold the four relevant arguments, and run the matching cascade.
Returns `(argumentExpressions, commentsExpression)`. -/
def matchedPair (callArguments : List Expr)
    (argumentMapping : ArgumentMapping)
    (commentOptions : Option CommentOptions) : ArgExprs × Option Expr :=
  let sorted := sortByPos (mappingEntries argumentMapping)
  let textPluralOptional : Bool :=
    match argumentMapping.textPlural with
    | some n => decide (n > argumentMapping.text)
    | none => true
  let contextOptional : Bool :=
    match argumentMapping.context with
    | some n => decide (n > argumentMapping.text)
    | none => true
  let commentMappingIndex : Option Nat :=
    argumentMapping.comments.map (fun cm => sorted.findIdx (fun rp => rp.2 == cm))
  let indices : List (Option Role × Option Nat) :=
    sorted.map (fun rp => (some rp.1, some rp.2)) ++
      [(none, none), (none, none), (none, none)]
  let firstArgument :=
    (getArg callArguments (indices.getD 0 (none, none)).2).map checkAndConcatenateStrings
  let secondArgument :=
    (getArg callArguments (indices.getD 1 (none, none)).2).map checkAndConcatenateStrings
  let thirdArgument :=
    (getArg callArguments (indices.getD 2 (none, none)).2).map checkAndConcatenateStrings
  let fourthArgument :=
    (getArg callArguments (indices.getD 3 (none, none)).2).map checkAndConcatenateStrings
  let r0 := (indices.getD 0 (none, none)).1
  let r1 := (indices.getD 1 (none, none)).1
  let r2 := (indices.getD 2 (none, none)).1
  let r3 := (indices.getD 3 (none, none)).1
  matchArgs argumentMapping.textPlural.isSome argumentMapping.context.isSome
    textPluralOptional contextOptional commentMappingIndex
    (fallbackOf commentOptions) commentOptions.isSome r0 r1 r2 r3
    firstArgument secondArgument thirdArgument fourthArgument

/-- The message `extractArguments` builds before the comments step
(lines 415-424): the resolved `text`, `textPlural` and `context`
expressions, normalized. -/
def baseMessage (A : ArgExprs) (contentOptions : ContentOptions) (te : Expr) :
    MessageData :=
  let message : MessageData := { text := normalizeContent (litText te) contentOptions }
  let message := match A.textPlural with
    | some tp =>
      { message with textPlural := some (normalizeContent (litText tp) contentOptions) }
    | none => message
  match A.context with
  | some cx =>
    { message with context := some (normalizeContent (litText cx) contentOptions) }
  | none => message

/-- `extractArguments` of the source.  The first component of the result
is the final state of the shared `commentOptions` object (which
`getComments` may mutate); the second is the extracted message, `none`
standing for the `null` return and `Except.error` for the propagated
malformed-comment `Error`. -/
def extractArguments (callArguments : List Expr)
    (argumentMapping : ArgumentMapping) (contentOptions : ContentOptions)
    (commentOptions : Option CommentOptions) :
    Option CommentOptions × Except ExtractErr (Option MessageData) :=
  let matched := matchedPair callArguments argumentMapping commentOptions
  let argumentExpressions := matched.1
  let commentsExpression := matched.2
  match argumentExpressions.text with
  | none => (commentOptions, .ok none)
  | some te =>
    let message := baseMessage argumentExpressions contentOptions te
    match commentsExpression, commentOptions with
    | some (.objectLit ps), some co =>
      match getComments ps none co {} message false none with
      | (o2, .error e) => (some o2, .error e)
      | (o2, .ok cobj) =>
        let commentList := cobj.comment ++ cobj.otherComments ++
          cobj.propComments ++ cobj.keyedComments
        (some o2, .ok (some { message with comments := some commentList }))
    | some ce, _ =>
      if isTextLiteral (some ce) then
        let commentList := splitLines (normalizeContent (litText ce) contentOptions)
        (commentOptions, .ok (some { message with comments := some commentList }))
      else (commentOptions, .ok (some message))
    | none, _ => (commentOptions, .ok (some message))

/-! ## Derived notions used in the claim statements -/

/-- Classification of an argument for a role, as the cascade tests it:
`comments` uses `isObjectLiteralExpression` when comment options are
configured and `isTextLiteral` otherwise (line 160); the other roles use
`isTextLiteral`. -/
def classifies (hasCmo : Bool) (r : Role) (a : Option Expr) : Bool :=
  match r with
  | .comments => if hasCmo then isObjectLiteralExpression a else isTextLiteral a
  | _ => isTextLiteral a

/-- The classification rule as the specification words it for claim C1:
`text-literal` for `text`/`textPlural`/`context`; for `comments` a
`text-literal`, or also a structured object when structured comments are
configured. -/
def classifiesSpec (hasCmo : Bool) (r : Role) (a : Option Expr) : Bool :=
  match r with
  | .comments => isTextLiteral a || (hasCmo && isObjectLiteralExpression a)
  | _ => isTextLiteral a

/-- The value the cascade matched for a role: the `argumentExpressions`
field for `text`/`textPlural`/`context`, the `commentsExpression` for
`comments`. -/
def matchedValue (R : ArgExprs × Option Expr) : Role → Option Expr
  | .comments => R.2
  | .text => R.1.text
  | .textPlural => R.1.textPlural
  | .context => R.1.context

/-- Whether a role is assigned in the final result of
`extractArguments`: a null (or failed) result assigns nothing, `text` is
assigned in every emitted message, and an optional role is assigned when
its field is present. -/
def assignedInResult (res : Except ExtractErr (Option MessageData)) (r : Role) : Bool :=
  match res with
  | .ok (some msg) =>
    match r with
    | .text => true
    | .textPlural => msg.textPlural.isSome
    | .context => msg.context.isSome
    | .comments => msg.comments.isSome
  | _ => false

/-- A result that assigns every configured role of the mapping. -/
def fullMatch (m : ArgumentMapping) (res : Except ExtractErr (Option MessageData)) : Bool :=
  match res with
  | .ok (some msg) =>
    (m.textPlural.isNone || msg.textPlural.isSome) &&
    (m.context.isNone || msg.context.isSome) &&
    (m.comments.isNone || msg.comments.isSome)
  | _ => false

/-- Whether a structured comment value contains a property whose folded
value is neither string-like nor an object literal. -/
def hasMalformed : List ObjProp → Bool
  | [] => false
  | .nonAssign :: rest => hasMalformed rest
  | .assign _ pval :: rest =>
    if isStringValue (checkAndConcatenateStrings pval) then hasMalformed rest
    else match pval with
      | .objectLit ps => hasMalformed ps || hasMalformed rest
      | _ => true

/-- The dotted key of the first malformed property in traversal order
(the flattener visits a nested object before the following sibling
keys). -/
def firstMalformedKey (props : List ObjProp) (prevKey : Option String) : Option String :=
  match props with
  | [] => none
  | .nonAssign :: rest => firstMalformedKey rest prevKey
  | .assign key pval :: rest =>
    let nextKey := match prevKey with | some pk => pk ++ "." ++ key | none => key
    if isStringValue (checkAndConcatenateStrings pval) then firstMalformedKey rest prevKey
    else match pval with
      | .objectLit ps =>
        match firstMalformedKey ps (some nextKey) with
        | some k => some k
        | none => firstMalformedKey rest prevKey
      | _ => some nextKey

/-- Pointwise concatenation of accumulators. -/
def mergeC (c d : CommentsObject) : CommentsObject :=
  ⟨c.comment ++ d.comment, c.otherComments ++ d.otherComments,
   c.propComments ++ d.propComments, c.keyedComments ++ d.keyedComments⟩

/-! ## Basic lemmas -/

theorem ArgExprs.get_set (A : ArgExprs) (ro : Option Role) (a : Option Expr) (r : Role) :
    (A.set ro a).get r = if ro = some r ∧ r ≠ .comments then a else A.get r := by
  cases ro with
  | none => simp [ArgExprs.set]
  | some r' => cases r' <;> cases r <;> simp [ArgExprs.set, ArgExprs.get]

theorem ArgExprs.text_set (A : ArgExprs) (ro : Option Role) (a : Option Expr) :
    (A.set ro a).text = if ro = some .text then a else A.text := by
  cases ro with
  | none => simp [ArgExprs.set]
  | some r' => cases r' <;> simp [ArgExprs.set]

theorem ArgExprs.get_default (r : Role) : ({} : ArgExprs).get r = none := by
  cases r <;> rfl

/-- With the default content options `normalizeContent` is the
identity. -/
theorem normalizeContent_default (s : String) : normalizeContent s {} = s := rfl

/-- An omitted marker is never a text literal. -/
theorem isTextLiteral_eq_false_of_marker (a : Option Expr)
    (h : isNullOrUndefined a = true) : isTextLiteral a = false := by
  cases a with
  | none => rfl
  | some e =>
    cases e <;> simp_all [isNullOrUndefined, isNull, isUndefined,
      isZeroNumericLiteral, isTextLiteral]

/-! ### Step lemmas for the flattening loop -/

theorem goProps_nil (pk : Option String) (o : CommentOptions)
    (c : CommentsObject) (msg : MessageData) (ip : Bool) (pks : List String) :
    goProps [] pk o c msg ip pks = (o, .ok c) := by
  rw [goProps.eq_def]

theorem goProps_nonAssign (rest : List ObjProp) (pk : Option String)
    (o : CommentOptions) (c : CommentsObject) (msg : MessageData) (ip : Bool)
    (pks : List String) :
    goProps (.nonAssign :: rest) pk o c msg ip pks =
      goProps rest pk o c msg ip pks := by
  rw [goProps.eq_def]

theorem goProps_string (key : String) (pval : Expr) (rest : List ObjProp)
    (pk : Option String) (o : CommentOptions) (c : CommentsObject)
    (msg : MessageData) (ip : Bool) (pks : List String)
    (hs : isStringValue (checkAndConcatenateStrings pval) = true) :
    goProps (.assign key pval :: rest) pk o c msg ip pks =
      match pushString key (checkAndConcatenateStrings pval) pk o c ip with
      | .ok c2 => goProps rest pk o c2 msg ip pks
      | .error e => (o, .error e) := by
  rw [goProps.eq_def]
  simp [hs]

theorem goProps_obj (key : String) (ps : List ObjProp) (rest : List ObjProp)
    (pk : Option String) (o : CommentOptions) (c : CommentsObject)
    (msg : MessageData) (ip : Bool) (pks : List String) :
    goProps (.assign key (.objectLit ps) :: rest) pk o c msg ip pks =
      (let oh := if o.throwWhenMalformed = none then
          { o with throwWhenMalformed := some true } else o
       let next := if pk = none ∧ pks.contains key then
          goProps ps (some key) oh c msg true pks
        else
          goProps ps
            (some (match pk with | some p => p ++ "." ++ key | none => key))
            oh c msg false pks
       match next.2 with
       | .error e => (next.1, .error e)
       | .ok c2 => goProps rest pk next.1 c2 msg ip pks) := by
  rw [goProps.eq_def]
  have hval : checkAndConcatenateStrings (.objectLit ps) = .objectLit ps := rfl
  simp only [hval, isStringValue]
  cases pk <;> rcases ho : o.throwWhenMalformed with _ | b <;> simp [ho]

theorem goProps_malformed_throw (key : String) (pval : Expr)
    (rest : List ObjProp) (pk : Option String) (o : CommentOptions)
    (c : CommentsObject) (msg : MessageData) (ip : Bool) (pks : List String)
    (hs : isStringValue (checkAndConcatenateStrings pval) = false)
    (hobj : ∀ ps, pval ≠ .objectLit ps)
    (ht : o.throwWhenMalformed = some true) :
    goProps (.assign key pval :: rest) pk o c msg ip pks =
      (o, .error (.malformed
        (match pk with | some p => p ++ "." ++ key | none => key)
        msg.text msg.context)) := by
  rw [goProps.eq_def]
  cases pval <;> simp_all

theorem goProps_malformed_skip (key : String) (pval : Expr)
    (rest : List ObjProp) (pk : Option String) (o : CommentOptions)
    (c : CommentsObject) (msg : MessageData) (ip : Bool) (pks : List String)
    (hs : isStringValue (checkAndConcatenateStrings pval) = false)
    (hobj : ∀ ps, pval ≠ .objectLit ps)
    (ht : o.throwWhenMalformed ≠ some true) :
    goProps (.assign key pval :: rest) pk o c msg ip pks =
      goProps rest pk o c msg ip pks := by
  rw [goProps.eq_def]
  cases pval <;> simp_all

theorem goProps_fst_aux : ∀ (n : Nat) (ps : List ObjProp), sizeOf ps ≤ n →
    ∀ (pk : Option String) (o : CommentOptions) (c : CommentsObject)
      (msg : MessageData) (ip : Bool) (pks : List String),
      o.throwWhenMalformed ≠ none → (goProps ps pk o c msg ip pks).1 = o := by
  intro n
  induction n with
  | zero =>
    intro ps hle
    cases ps with
    | nil => intro pk o c msg ip pks h; rw [goProps_nil]
    | cons p rest =>
      intro pk o c msg ip pks h
      exact absurd hle (by simp <;> omega)
  | succ n ih =>
    intro ps hle pk o c msg ip pks h
    match ps with
    | [] => rw [goProps_nil]
    | .nonAssign :: rest =>
      rw [goProps_nonAssign]
      exact ih rest (by simp at hle ⊢ <;> omega) pk o c msg ip pks h
    | .assign key pval :: rest =>
      by_cases hs : isStringValue (checkAndConcatenateStrings pval) = true
      · rw [goProps_string _ _ _ _ _ _ _ _ _ hs]
        cases hps : pushString key (checkAndConcatenateStrings pval) pk o c ip with
        | ok c2 => exact ih rest (by simp at hle ⊢ <;> omega) pk o c2 msg ip pks h
        | error e => rfl
      · rw [Bool.not_eq_true] at hs
        match pval, hs with
        | .objectLit ps1, hs =>
          rw [goProps_obj]
          simp only [if_neg h]
          have hsz1 : sizeOf ps1 ≤ n := by simp at hle <;> omega
          have hszr : sizeOf rest ≤ n := by simp at hle <;> omega
          by_cases hcond : pk = none ∧ pks.contains key = true
          · simp only [if_pos hcond]
            have h1 := ih ps1 hsz1 (some key) o c msg true pks h
            cases hgo : (goProps ps1 (some key) o c msg true pks).2 with
            | error e => simp [hgo, h1]
            | ok c2 => simp [hgo, h1, ih rest hszr pk o c2 msg ip pks h]
          · simp only [if_neg hcond]
            cases pk with
            | none =>
              have h1 := ih ps1 hsz1 (some key) o c msg false pks h
              cases hgo : (goProps ps1 (some key) o c msg false pks).2 with
              | error e => simp [hgo, h1]
              | ok c2 => simp [hgo, h1, ih rest hszr none o c2 msg ip pks h]
            | some p =>
              have h1 := ih ps1 hsz1 (some (p ++ "." ++ key)) o c msg false pks h
              cases hgo : (goProps ps1 (some (p ++ "." ++ key)) o c msg false pks).2 with
              | error e => simp [hgo, h1]
              | ok c2 => simp [hgo, h1, ih rest hszr (some p) o c2 msg ip pks h]
        | .stringLit s, hs =>
          simp [checkAndConcatenateStrings, getAdditionExpression, isStringValue] at hs
        | .templateLit s, hs =>
          simp [checkAndConcatenateStrings, getAdditionExpression, isStringValue] at hs
        | .nullLit, hs
        | .identExpr _, hs
        | .numericLit _, hs
        | .binaryPlus _ _, hs
        | .paren _, hs
        | .otherExpr, hs =>
          by_cases ht : o.throwWhenMalformed = some true
          · rw [goProps_malformed_throw _ _ _ _ _ _ _ _ _
              hs (by intro ps1 hh; cases hh) ht]
          · rw [goProps_malformed_skip _ _ _ _ _ _ _ _ _
              hs (by intro ps1 hh; cases hh) ht]
            exact ih rest (by simp at hle ⊢ <;> omega) pk o c msg ip pks h

/-- Once `throwWhenMalformed` is set, the flattening loop returns the
options object unchanged. -/
theorem goProps_fst (ps : List ObjProp) (pk : Option String)
    (o : CommentOptions) (c : CommentsObject) (msg : MessageData) (ip : Bool)
    (pks : List String) (h : o.throwWhenMalformed ≠ none) :
    (goProps ps pk o c msg ip pks).1 = o :=
  goProps_fst_aux (sizeOf ps) ps le_rfl pk o c msg ip pks h

/-- `getComments` returns the options object with `throwWhenMalformed`
defaulted to `true` and everything else unchanged. -/
theorem getComments_fst (ps : List ObjProp) (pk : Option String)
    (o : CommentOptions) (c : CommentsObject) (msg : MessageData) (ip : Bool)
    (pks0 : Option (List String)) :
    (getComments ps pk o c msg ip pks0).1 =
      if o.throwWhenMalformed = none then
        { o with throwWhenMalformed := some true } else o := by
  unfold getComments
  rcases ho : o.throwWhenMalformed with _ | b
  · simp only [ho, if_pos rfl]
    exact goProps_fst _ _ _ _ _ _ _ (by simp)
  · simp only [ho]
    have h1 := goProps_fst ps pk o c msg ip
      (match pks0 with
       | some ks => ks
       | none => match o.props with | some l => l.map (fun e => e.1) | none => [])
      (by rw [ho]; exact fun hh => Option.noConfusion hh)
    simp_all

/-- Evaluation rule for `extractArguments` on the structured-comments
path: with `text` resolved, a structured comments expression captured,
comment options present, and a successful flattening, the result is the
base message extended with the concatenated four comment lists. -/
theorem extractArguments_flatten (callArguments : List Expr)
    (m : ArgumentMapping) (copts : ContentOptions)
    (cmo : Option CommentOptions) (co : CommentOptions) (te : Expr)
    (ps : List ObjProp) (o2 : CommentOptions) (cobj : CommentsObject)
    (hcmo : cmo = some co)
    (hte : (matchedPair callArguments m cmo).1.text = some te)
    (hce : (matchedPair callArguments m cmo).2 = some (.objectLit ps))
    (hgc : getComments ps none co {}
      (baseMessage (matchedPair callArguments m cmo).1 copts te) false none =
      (o2, .ok cobj)) :
    extractArguments callArguments m copts cmo =
      (some o2, .ok (some
        { baseMessage (matchedPair callArguments m cmo).1 copts te with
          comments := some (cobj.comment ++ cobj.otherComments ++
            cobj.propComments ++ cobj.keyedComments) })) := by
  subst hcmo
  unfold extractArguments
  simp only [hte, hce, hgc]

/-- C10 (corrected, amended): the configuration passed to the matcher is
returned unchanged, except that flattening a structured comment sets
`throwWhenMalformed` to `true` in place when that field was undefined.
In particular, whenever `throwWhenMalformed` is defined (as on every
path through `callExpressionExtractor`, which defaults it to `true`),
no configuration object is ever mutated. -/
theorem C10_config_mutation_characterized :
    ∀ (callArguments : List Expr) (m : ArgumentMapping)
      (copts : ContentOptions) (cmo : Option CommentOptions),
      (extractArguments callArguments m copts cmo).1 = cmo ∨
      ∃ co, cmo = some co ∧ co.throwWhenMalformed = none ∧
        (extractArguments callArguments m copts cmo).1 =
          some { co with throwWhenMalformed := some true } := by
  intro args m copts cmo
  unfold extractArguments
  cases hte : (matchedPair args m cmo).1.text with
  | none => left; simp [hte]
  | some te =>
    rcases hce : (matchedPair args m cmo).2 with _ | ce
    · left; simp [hte, hce]
    · cases ce
      case objectLit ps =>
        cases cmo with
        | none => left; simp [hte, hce, isTextLiteral]
        | some co =>
          simp only [hte, hce]
          rcases hgc : getComments ps none co {}
            (baseMessage (matchedPair args m (some co)).1 copts te) false none
            with ⟨o2, res⟩
          have hfst := getComments_fst ps none co {}
            (baseMessage (matchedPair args m (some co)).1 copts te) false none
          rw [hgc] at hfst
          rcases ho : co.throwWhenMalformed with _ | b
          · right
            refine ⟨co, rfl, ho, ?_⟩
            simp only [ho, if_pos rfl] at hfst
            cases res <;> simp [hgc, hfst]
          · left
            simp only [ho] at hfst
            simp at hfst
            cases res <;> simp [hgc, ← ho, hfst]
      all_goals left
      all_goals simp only [hte, hce]
      all_goals split <;> rfl

/-- C3 (confirmed): with mapping `text:0, textPlural:1, comments:2,
context:3`, structured comments configured and fallback enabled, the
two-argument call `("Foo", obj(comment: "No Plural here."))` produces
exactly the message `text = "Foo"`, `comments = ["No Plural here."]`,
with `textPlural` and `context` unassigned. -/
theorem C3_two_argument_fallback_scenario :
    extractArguments
      [Expr.stringLit "Foo",
       Expr.objectLit [.assign "comment" (.stringLit "No Plural here.")]]
      { text := 0, textPlural := some 1, comments := some 2, context := some 3 }
      {}
      (some { commentString := some "comment",
              props := some [("props", ("[", "]"))],
              throwWhenMalformed := some true, fallback := some true }) =
    (some { commentString := some "comment",
            props := some [("props", ("[", "]"))],
            throwWhenMalformed := some true, fallback := some true },
     .ok (some { text := "Foo", comments := some ["No Plural here."] })) := by
  simp [extractArguments, matchedPair, matchArgs, matchBothOptional,
    getComments, goProps,
    pushString, sortByPos, mappingEntries, insertByPos, getArg, fallbackOf,
    List.findIdx_cons, List.findIdx_nil, isStringValue,
    checkAndConcatenateStrings, getAdditionExpression, splitLines,
    splitLinesList, litText, normalizeContent, isTextLiteral,
    isObjectLiteralExpression, isNullOrUndefined, isNull, isUndefined,
    isZeroNumericLiteral, ArgExprs.set, baseMessage]

/-- C8 (corrected): counterexample to the claim as stated — the plain
literal comments value is passed through `normalizeContent` before the
split, so with `replaceNewLines` configured the resulting list is not
the raw value split on line breaks. -/
theorem C8_counterexample :
    (extractArguments [Expr.stringLit "T", Expr.stringLit "a\nb"]
        { text := 0, comments := some 1 } { replaceNewLines := some "; " }
        none).2 =
      .ok (some { text := "T", comments := some ["a; b"] }) ∧
    splitLines "a\nb" = ["a", "b"] ∧
    (["a; b"] : List String) ≠ ["a", "b"] := by
  refine ⟨rfl, rfl, by decide⟩

/-- C8 (corrected, amended): when the resolved comments argument is a
plain text literal, the comments list is the literal's value passed
through `normalizeContent` and then split on line breaks (equal to the
raw split only under the default content options). -/
theorem C8_plain_literal_comments_normalized :
    ∀ (callArguments : List Expr) (m : ArgumentMapping)
      (copts : ContentOptions) (cmo : Option CommentOptions) (te ce : Expr),
      (matchedPair callArguments m cmo).1.text = some te →
      (matchedPair callArguments m cmo).2 = some ce →
      isTextLiteral (some ce) = true →
      (extractArguments callArguments m copts cmo).2 =
        .ok (some { baseMessage (matchedPair callArguments m cmo).1 copts te
          with comments :=
            some (splitLines (normalizeContent (litText ce) copts)) }) := by
  intro args m copts cmo te ce hte hce hlit
  unfold extractArguments
  simp only [hte, hce]
  cases ce <;> simp_all [isTextLiteral]

/-- C8 (corrected): witness for the amended claim at a concrete
input. -/
theorem C8_plain_literal_comments_normalized_witness :
    (extractArguments [Expr.stringLit "T", Expr.stringLit "a\nb"]
        { text := 0, comments := some 1 } { replaceNewLines := some "; " }
        none).2 =
      .ok (some { baseMessage
          (matchedPair [Expr.stringLit "T", Expr.stringLit "a\nb"]
            { text := 0, comments := some 1 } none).1
          { replaceNewLines := some "; " } (.stringLit "T")
        with comments := some (splitLines
          (normalizeContent (litText (.stringLit "a\nb"))
            { replaceNewLines := some "; " })) }) :=
  C8_plain_literal_comments_normalized
    [Expr.stringLit "T", Expr.stringLit "a\nb"]
    { text := 0, comments := some 1 } { replaceNewLines := some "; " } none
    (.stringLit "T") (.stringLit "a\nb") rfl rfl rfl

/-- C9 (corrected): counterexample to the claim as stated — with
`commentString := "note"` and a property group named `comment`, the
group key differs from the configured comment key, yet the string
children are NOT emitted in bracketed form: the flattener compares the
group key against the literal string `"comment"`, not against the
configured `commentString`, and routes the lines to the keyed list. -/
theorem C9_counterexample :
    (extractArguments
        [Expr.stringLit "T",
         Expr.objectLit [.assign "comment"
           (.objectLit [.assign "X" (.stringLit "v")])]]
        { text := 0, comments := some 1 } {}
        (some { commentString := some "note",
                props := some [("comment", ("[", "]"))],
                throwWhenMalformed := some true, fallback := some true })).2 =
      .ok (some { text := "T", comments := some ["comment.X: v"] }) ∧
    "comment" ≠ "note" ∧
    (["comment.X: v"] : List String) ≠ ["[X]: v"] := by
  refine ⟨?_, by decide, by decide⟩
  have hg : getComments
      [.assign "comment" (.objectLit [.assign "X" (.stringLit "v")])] none
      { commentString := some "note", props := some [("comment", ("[", "]"))],
        throwWhenMalformed := some true, fallback := some true }
      {}
      (baseMessage (matchedPair
        [Expr.stringLit "T",
         Expr.objectLit [.assign "comment"
           (.objectLit [.assign "X" (.stringLit "v")])]]
        { text := 0, comments := some 1 }
        (some { commentString := some "note",
                props := some [("comment", ("[", "]"))],
                throwWhenMalformed := some true, fallback := some true })).1
        {} (.stringLit "T"))
      false none =
    ({ commentString := some "note", props := some [("comment", ("[", "]"))],
       throwWhenMalformed := some true, fallback := some true },
     .ok { keyedComments := ["comment.X: v"] }) := by
    simp [getComments, goProps_obj, goProps_string, goProps_nil, pushString,
      lookupProps, splitLines, splitLinesList, litText, isStringValue,
      checkAndConcatenateStrings, getAdditionExpression]
  rw [extractArguments_flatten
    [Expr.stringLit "T",
     Expr.objectLit [.assign "comment"
       (.objectLit [.assign "X" (.stringLit "v")])]]
    { text := 0, comments := some 1 } {}
    (some { commentString := some "note",
            props := some [("comment", ("[", "]"))],
            throwWhenMalformed := some true, fallback := some true })
    { commentString := some "note", props := some [("comment", ("[", "]"))],
      throwWhenMalformed := some true, fallback := some true }
    (.stringLit "T")
    [.assign "comment" (.objectLit [.assign "X" (.stringLit "v")])]
    { commentString := some "note", props := some [("comment", ("[", "]"))],
      throwWhenMalformed := some true, fallback := some true }
    { keyedComments := ["comment.X: v"] }
    rfl rfl rfl hg]
  rfl

/-- C9 (corrected, amended): inside a recognized property group, a
string-valued property is emitted in bracketed
`<openBracket><key><closeBracket>: <line>` form exactly when the group
key differs from the literal string `"comment"` — independently of the
configured `commentString`; when the group key is `"comment"` the lines
go to the keyed list in dotted form instead. -/
theorem C9_grouped_format_characterized :
    (∀ (key s : String) (rest : List ObjProp) (g : String)
       (o : CommentOptions) (c : CommentsObject) (msg : MessageData)
       (pks : List String) (braces : String × String),
      g ≠ "comment" → lookupProps o.props g = some braces →
      goProps (.assign key (.stringLit s) :: rest) (some g) o c msg true pks =
        goProps rest (some g) o
          { c with propComments := c.propComments ++
              (splitLines s).map (fun line =>
                braces.1 ++ key ++ braces.2 ++ ": " ++ line) }
          msg true pks) ∧
    (∀ (key s : String) (rest : List ObjProp) (o : CommentOptions)
       (c : CommentsObject) (msg : MessageData) (pks : List String),
      goProps (.assign key (.stringLit s) :: rest) (some "comment") o c msg
          true pks =
        goProps rest (some "comment") o
          { c with keyedComments := c.keyedComments ++
              (splitLines s).map (fun line =>
                "comment" ++ "." ++ key ++ ": " ++ line) }
          msg true pks) := by
  constructor
  · intro key s rest g o c msg pks braces hg hb
    rw [goProps_string key (.stringLit s) rest (some g) o c msg true pks rfl]
    simp [pushString, hg, hb, litText, checkAndConcatenateStrings,
      getAdditionExpression]
  · intro key s rest o c msg pks
    rw [goProps_string key (.stringLit s) rest (some "comment") o c msg true
      pks rfl]
    simp [pushString, litText, checkAndConcatenateStrings,
      getAdditionExpression]

/-- C9 (corrected): witness for the amended claim at a concrete
input. -/
theorem C9_grouped_format_characterized_witness :
    goProps [.assign "X" (.stringLit "v")] (some "g")
        { commentString := some "note", props := some [("g", ("[", "]"))],
          throwWhenMalformed := some true } {} { text := "T" } true [] =
      ({ commentString := some "note", props := some [("g", ("[", "]"))],
         throwWhenMalformed := some true },
       .ok { propComments := ["[X]: v"] }) := by
  rw [C9_grouped_format_characterized.1 "X" "v" [] "g"
    { commentString := some "note", props := some [("g", ("[", "]"))],
      throwWhenMalformed := some true } {} { text := "T" } [] ("[", "]")
    (by decide) rfl]
  simp [goProps_nil, splitLines, splitLinesList]

/-- C10 (corrected): counterexample to the claim as stated — with
`throwWhenMalformed` left undefined and a structured comment flattened,
the `commentOptions` object differs after the call: its
`throwWhenMalformed` field has been set to `true`. -/
theorem C10_counterexample :
    (extractArguments
        [Expr.stringLit "T", Expr.objectLit [.assign "comment" (.stringLit "x")]]
        { text := 0, comments := some 1 } {}
        (some { commentString := some "comment", fallback := some true })).1 =
      some { commentString := some "comment", throwWhenMalformed := some true,
             fallback := some true } ∧
    some ({ commentString := some "comment", throwWhenMalformed := some true,
            fallback := some true } : CommentOptions) ≠
      some ({ commentString := some "comment", fallback := some true } :
        CommentOptions) := by
  constructor
  · simp [extractArguments, matchedPair, matchArgs, matchTextOnly,
      getComments, goProps,
      pushString, sortByPos, mappingEntries, insertByPos, getArg, fallbackOf,
      List.findIdx_cons, List.findIdx_nil, isStringValue,
      checkAndConcatenateStrings, getAdditionExpression, splitLines,
      splitLinesList, litText, normalizeContent, isTextLiteral,
      isObjectLiteralExpression, isNullOrUndefined, isNull, isUndefined,
      isZeroNumericLiteral, ArgExprs.set, baseMessage]
  · decide

end GettextJs
